import Mathlib

/-!
Shallow embedding of the `render-loop` fixed-timestep scheduler
(`src/mod.ts`) and proofs of its specified properties.

Time values (seconds) are embedded as exact rationals `ℚ`; frame counts
as `ℕ`.  The scheduler's mutable fields together with the local mutable
variables of `start()` (`lastTime`, `unprocessedTime`, `startupTime`)
form one state record, and each body of the `loop` closure is a pure
step function on that record.
-/

set_option autoImplicit false

namespace RenderLoopSpec

/-- Embedding of the source's `Unit` enum (`src/mod.ts`, `Unit`):
a physical-unit tag attached to numbers via a global side table.
Named `TimeUnit` here because `Unit` is taken in Lean. -/
inductive TimeUnit where
  | unknown
  | ns
  | ms
  | s
deriving DecidableEq

/-- Embedding of the `Number.prototype.seconds` getter (`src/mod.ts`
lines 88-97): converts a number with the given unit tag to seconds.
For an untagged number the getter returns the number itself (it merely
tags it with `Unit.seconds`), so the magnitude is unchanged.
(The source's nanosecond branch divides by 1e6; it is embedded as
written.) -/
def TimeUnit.secondsConv : TimeUnit → ℚ → ℚ
  | .unknown, x => x
  | .ns, x => x / 1000000
  | .ms, x => x / 1000
  | .s, x => x

/-- The global `units` side table maps a numeric value to its unit tag;
in a fresh process the table is empty, so every lookup yields
`Unit.unknown`. -/
def freshUnits : ℚ → TimeUnit := fun _ => TimeUnit.unknown

/-- Embedding of the `Tick` record (`src/mod.ts`, class `Tick`). -/
structure Tick where
  /-- Desired time span to render a single frame, in seconds. -/
  desiredFrameTime : ℚ
  /-- Measured time span of the last frame, in seconds. -/
  frameTime : ℚ
  /-- Time the render loop started, in seconds. -/
  startupTime : ℚ
deriving DecidableEq

/-- Embedding of the `Tick.desiredFrameRate` getter:
`1000 / (this.desiredFrameTime * 1000)`. -/
def Tick.desiredFrameRate (t : Tick) : ℚ :=
  1000 / (t.desiredFrameTime * 1000)

/-- State of a `RenderLoop` instance: the private fields `_frameTime`,
`_frames`, `_frameCounter`, `_isRunning`, `_finished`, together with the
local variables of `start()` (`startupTime`, `lastTime`,
`unprocessedTime`), which persist across iterations of the loop closure.
`finished` models the `PromiseWithResolvers` completion signal:
`none` is the `null` field, `some false` a pending promise, `some true`
a resolved one. -/
structure RenderLoop where
  frameTime : ℚ
  frames : ℕ
  frameCounter : ℚ
  isRunning : Bool
  finished : Option Bool
  startupTime : ℚ
  lastTime : ℚ
  unprocessedTime : ℚ
deriving DecidableEq

/-- Direct embedding of the drain loop
`while (unprocessedTime > this._frameTime) { shouldRender = this._isRunning; unprocessedTime -= this._frameTime; }`
(`src/mod.ts` lines 183-186) as a step-indexed loop: `drainFuel T n u`
runs at most `n` loop iterations starting from accumulator value `u`;
it returns `some (u', k)` when the loop exits (condition false) after
`k ≤ n` iterations with final accumulator `u'`, and `none` when the
loop is still running after `n` iterations. -/
def drainFuel (T : ℚ) : ℕ → ℚ → Option (ℚ × ℕ)
  | 0, u => if T < u then none else some (u, 0)
  | n + 1, u =>
    if T < u then (drainFuel T n (u - T)).map (fun p => (p.1, p.2 + 1))
    else some (u, 0)

/-- Same loop body as `drainFuel`, but total: if the fuel runs out the
current accumulator is returned.  Used with fuel `drainBound`, which is
proved sufficient whenever `0 < T` (`drainFuel_eq_drain`), so on that
domain `drain` is the exact result of the source's while loop. -/
def drainAux (T : ℚ) : ℕ → ℚ → ℚ × ℕ
  | 0, u => (u, 0)
  | n + 1, u =>
    if T < u then
      let p := drainAux T n (u - T)
      (p.1, p.2 + 1)
    else (u, 0)

/-- An upper bound on the number of iterations of the drain loop when
`0 < T`: the loop runs while `T < u`, subtracting `T` each time. -/
def drainBound (T u : ℚ) : ℕ := (⌈u / T⌉).toNat

/-- Result of the source's drain loop: final accumulator value and
number of timesteps drained. -/
def drain (T u : ℚ) : ℚ × ℕ := drainAux T (drainBound T u) u

/-- What `enqueueLoop` does (`src/mod.ts` lines 168-173): if the loop is
still running it schedules the next iteration of `loop` as a microtask,
otherwise it resolves the `_finished` completion signal and schedules
nothing. -/
inductive EnqueueAction where
  | scheduleLoop
  | resolveFinished
deriving DecidableEq

/-- Embedding of `enqueueLoop` (`src/mod.ts` lines 168-173). -/
def enqueueLoop (isRunning : Bool) : EnqueueAction :=
  if isRunning then EnqueueAction.scheduleLoop else EnqueueAction.resolveFinished

/-- How an iteration of `loop` continues (`src/mod.ts` lines 188-204):
the no-render path delays 1 ms and then calls `enqueueLoop`; the render
path calls `enqueueLoop` immediately after the callbacks. -/
inductive IterCont where
  | delayThenEnqueue
  | enqueueNow
deriving DecidableEq

/-- Result of one execution of the `loop` closure body: the updated
state, the `Tick` dispatched and passed to the application on this
iteration (if any), and how the iteration continues. -/
structure IterResult where
  state : RenderLoop
  tick : Option Tick
  cont : IterCont
deriving DecidableEq

/-- Embedding of one execution of the `loop` closure body (`src/mod.ts`
lines 175-205), sampling the clock value `now`.  The source sets
`shouldRender = this._isRunning` once per drain-loop iteration; since
execution is single-threaded and nothing inside the loop body mutates
`_isRunning`, this equals `isRunning && (at least one timestep was
drained)`. -/
def loopIter (s : RenderLoop) (now : ℚ) : IterResult :=
  let passedTime := now - s.lastTime
  let unprocessed := s.unprocessedTime + passedTime
  let counter := s.frameCounter + passedTime
  let drained := drain s.frameTime unprocessed
  let shouldRender := s.isRunning && decide (drained.2 ≠ 0)
  if shouldRender then
    { state := { s with
        lastTime := now
        unprocessedTime := drained.1
        frames := (if 1 ≤ counter then 0 else s.frames) + 1
        frameCounter := if 1 ≤ counter then 0 else counter }
      tick := some ⟨s.frameTime, passedTime, s.startupTime⟩
      cont := IterCont.enqueueNow }
  else
    { state := { s with
        lastTime := now
        unprocessedTime := drained.1
        frameCounter := counter }
      tick := none
      cont := IterCont.delayThenEnqueue }

/-- A run of the loop: executes one iteration per clock sample in `ts`,
collecting the ticks delivered, in order. -/
def runLoop (s : RenderLoop) : List ℚ → RenderLoop × List Tick
  | [] => (s, [])
  | t :: ts =>
    let r := loopIter s t
    let rest := runLoop r.state ts
    (rest.1, match r.tick with
      | some tk => tk :: rest.2
      | none => rest.2)

/-- A clock-sample list is monotone from time `t`: each sample is at
least the previous one (the time source is monotonic). -/
def monoFrom (t : ℚ) : List ℚ → Bool
  | [] => true
  | x :: xs => decide (t ≤ x) && monoFrom x xs

/-- Embedding of the `RenderLoop` constructor body (`src/mod.ts` lines
127-133): stores `_frameTime = ((1 / frameRate)).seconds`, where
`.seconds` consults the unit side table `unitOf`.  The remaining fields
take their declared initializers (`_frames = 0`, `_frameCounter = 0`,
`_isRunning = false`, `_finished = null`); the variables belonging to
`start()` are initialized to `0` here as placeholders (they are dead
until `start()` overwrites them). -/
def mkRenderLoop (unitOf : ℚ → TimeUnit) (frameRate : ℚ) : RenderLoop :=
  { frameTime := (unitOf (1 / frameRate)).secondsConv (1 / frameRate)
    frames := 0
    frameCounter := 0
    isRunning := false
    finished := none
    startupTime := 0
    lastTime := 0
    unprocessedTime := 0 }

/-- The constructor as implemented performs no validation of
`frameRate`: it completes without throwing for every input, including
zero and negative rates (there is no positivity check in `src/mod.ts`
lines 127-133). -/
def constructorOutcome (unitOf : ℚ → TimeUnit) (frameRate : ℚ) :
    Except String RenderLoop :=
  Except.ok (mkRenderLoop unitOf frameRate)

/-- Embedding of `start()` (`src/mod.ts` lines 155-211): a no-op
returning `this` when already running; otherwise sets `_isRunning`,
creates a fresh pending completion signal, captures `startupTime`,
initializes `lastTime` and `unprocessedTime`, and enqueues the first
iteration.  The returned `Bool` records whether a new iteration chain
was enqueued. -/
def start (s : RenderLoop) (now : ℚ) : RenderLoop × Bool :=
  if s.isRunning then (s, false)
  else
    ({ s with
        isRunning := true
        finished := some false
        startupTime := now
        lastTime := now
        unprocessedTime := 0 }, true)

/-- Embedding of the `finished` getter (`src/mod.ts` lines 141-147):
when `_finished` is `null` it asserts `_isRunning === false` (modelled
as `Except.error`) and returns an immediately-resolved promise;
otherwise it returns `_finished.promise`, whose resolvedness is the
stored flag.  `Except.ok true` means the returned promise is already
resolved. -/
def finishedGet (s : RenderLoop) : Except String Bool :=
  match s.finished with
  | none => if s.isRunning then Except.error "assert" else Except.ok true
  | some resolved => Except.ok resolved

/-- Embedding of `stop()` (`src/mod.ts` lines 216-222), less the
signal-listener deregistration (out of scope): sets `_isRunning = false`
and returns `this.finished`. -/
def stop (s : RenderLoop) : RenderLoop × Except String Bool :=
  let s1 := { s with isRunning := false }
  (s1, finishedGet s1)

/-- The invariant carried across loop iterations: the fixed timestep is
`T` and the accumulator lies in `[0, T]`. -/
def Inv (T : ℚ) (s : RenderLoop) : Prop :=
  s.frameTime = T ∧ 0 ≤ s.unprocessedTime ∧ s.unprocessedTime ≤ T

theorem ceil_div_sub (T u : ℚ) (hT : 0 < T) : ⌈(u - T) / T⌉ = ⌈u / T⌉ - 1 := by
  have hne : T ≠ 0 := ne_of_gt hT
  have h3 : (u - T) / T = u / T - 1 := by
    field_simp
  rw [h3]
  exact_mod_cast Int.ceil_sub_int (u / T) 1

theorem drainBound_le_zero (T u : ℚ) (hT : 0 < T) (h : drainBound T u = 0) :
    ¬ T < u := by
  intro hlt
  have h1 : (1 : ℚ) < u / T := (one_lt_div hT).mpr hlt
  have h2 : (1 : ℤ) < ⌈u / T⌉ := by
    have := Int.lt_ceil.mpr (show ((1 : ℤ) : ℚ) < u / T by exact_mod_cast h1)
    exact this
  unfold drainBound at h
  omega

/-- With `0 < T`, the fuel `drainBound T u` is enough for the drain loop
to exit: the step-indexed loop returns exactly `drain`'s result, for any
fuel at least the bound. -/
theorem drainFuel_eq_drainAux (T : ℚ) (hT : 0 < T) :
    ∀ (n : ℕ) (u : ℚ), drainBound T u ≤ n →
      drainFuel T n u = some (drainAux T n u) := by
  intro n
  induction n with
  | zero =>
    intro u hb
    have hb0 : drainBound T u = 0 := Nat.le_zero.mp hb
    have := drainBound_le_zero T u hT hb0
    simp [drainFuel, drainAux, this]
  | succ n ih =>
    intro u hb
    by_cases hlt : T < u
    · have hceil : ⌈(u - T) / T⌉ = ⌈u / T⌉ - 1 := ceil_div_sub T u hT
      have hb' : drainBound T (u - T) ≤ n := by
        unfold drainBound at hb ⊢
        rw [hceil]
        omega
      rw [drainFuel, drainAux]
      simp [hlt, ih (u - T) hb']
    · simp [drainFuel, drainAux, hlt]

/-- With positive timestep the source's drain loop terminates and
computes `drain`. -/
theorem drainFuel_eq_drain (T u : ℚ) (hT : 0 < T) :
    drainFuel T (drainBound T u) u = some (drain T u) :=
  drainFuel_eq_drainAux T hT (drainBound T u) u (Nat.le_refl _)

/-- With non-positive timestep the drain loop never exits once entered:
`u - T ≥ u > T` keeps the condition true forever. -/
theorem drainFuel_none_of_nonpos (T : ℚ) (hT : T ≤ 0) :
    ∀ (n : ℕ) (u : ℚ), T < u → drainFuel T n u = none := by
  intro n
  induction n with
  | zero => intro u hu; simp [drainFuel, hu]
  | succ n ih =>
    intro u hu
    have hu' : T < u - T := by linarith
    rw [drainFuel]
    simp [hu, ih (u - T) hu']

theorem drainAux_fst_sub (T : ℚ) :
    ∀ (n : ℕ) (u : ℚ),
      (drainAux T n u).1 = u - ((drainAux T n u).2 : ℚ) * T := by
  intro n
  induction n with
  | zero => intro u; simp [drainAux]
  | succ n ih =>
    intro u
    by_cases hlt : T < u
    · rw [drainAux]
      simp only [hlt, if_true]
      have := ih (u - T)
      push_cast
      rw [this]
      ring
    · simp [drainAux, hlt]

theorem drainAux_fst_nonneg (T : ℚ) :
    ∀ (n : ℕ) (u : ℚ), 0 ≤ u → 0 ≤ (drainAux T n u).1 := by
  intro n
  induction n with
  | zero => intro u hu; simpa [drainAux] using hu
  | succ n ih =>
    intro u hu
    by_cases hlt : T < u
    · rw [drainAux]
      simp only [hlt, if_true]
      exact ih (u - T) (by linarith)
    · simpa [drainAux, hlt] using hu

theorem drainAux_fst_le (T : ℚ) (hT : 0 < T) :
    ∀ (n : ℕ) (u : ℚ), drainBound T u ≤ n → (drainAux T n u).1 ≤ T := by
  intro n
  induction n with
  | zero =>
    intro u hb
    have hb0 : drainBound T u = 0 := Nat.le_zero.mp hb
    have := drainBound_le_zero T u hT hb0
    simpa [drainAux] using le_of_not_lt this
  | succ n ih =>
    intro u hb
    by_cases hlt : T < u
    · have hceil : ⌈(u - T) / T⌉ = ⌈u / T⌉ - 1 := ceil_div_sub T u hT
      have hb' : drainBound T (u - T) ≤ n := by
        unfold drainBound at hb ⊢
        rw [hceil]
        omega
      rw [drainAux]
      simp only [hlt, if_true]
      exact ih (u - T) hb'
    · simpa [drainAux, hlt] using le_of_not_lt hlt

theorem drainAux_snd_ne_zero (T : ℚ) :
    ∀ (n : ℕ) (u : ℚ), (drainAux T n u).2 ≠ 0 → T < u := by
  intro n
  induction n with
  | zero => intro u h; simp [drainAux] at h
  | succ n _ =>
    intro u h
    by_cases hlt : T < u
    · exact hlt
    · simp [drainAux, hlt] at h

theorem drain_fst_sub (T u : ℚ) :
    (drain T u).1 = u - ((drain T u).2 : ℚ) * T :=
  drainAux_fst_sub T (drainBound T u) u

theorem drain_fst_nonneg (T u : ℚ) (hu : 0 ≤ u) :
    0 ≤ (drain T u).1 :=
  drainAux_fst_nonneg T (drainBound T u) u hu

theorem drain_fst_le (T u : ℚ) (hT : 0 < T) : (drain T u).1 ≤ T :=
  drainAux_fst_le T hT (drainBound T u) u (Nat.le_refl _)

theorem drain_snd_ne_zero (T u : ℚ) (h : (drain T u).2 ≠ 0) : T < u :=
  drainAux_snd_ne_zero T (drainBound T u) u h

theorem drain_eq_self (T u : ℚ) (h : ¬ T < u) : drain T u = (u, 0) := by
  unfold drain
  cases drainBound T u with
  | zero => simp [drainAux]
  | succ n => simp [drainAux, h]

theorem drain_succ (T u : ℚ) (hT : 0 < T) (hu : T < u) :
    drain T u = ((drain T (u - T)).1, (drain T (u - T)).2 + 1) := by
  have hceil : ⌈(u - T) / T⌉ = ⌈u / T⌉ - 1 := ceil_div_sub T u hT
  have h1 : (1 : ℚ) < u / T := (one_lt_div hT).mpr hu
  have h2 : (1 : ℤ) < ⌈u / T⌉ := by
    have := Int.lt_ceil.mpr (show ((1 : ℤ) : ℚ) < u / T by exact_mod_cast h1)
    exact this
  have hb : drainBound T u = drainBound T (u - T) + 1 := by
    unfold drainBound
    rw [hceil]
    omega
  unfold drain
  rw [hb, drainAux]
  simp [hu]

/-- Characterization of the drain loop's result: if `u` splits as a
remainder `r` with `0 < r ≤ T` plus `n` whole timesteps, the loop
drains exactly `n` timesteps and leaves `r`. -/
theorem drain_eq_of (T r : ℚ) (hT : 0 < T) (hr0 : 0 < r) (hrT : r ≤ T) :
    ∀ (n : ℕ) (u : ℚ), u = r + n * T → drain T u = (r, n) := by
  intro n
  induction n with
  | zero =>
    intro u hu
    have hur : u = r := by rw [hu]; norm_num
    rw [hur]
    exact drain_eq_self T r (not_lt.mpr hrT)
  | succ n ih =>
    intro u hu
    have hlt : T < u := by
      rw [hu]
      push_cast
      nlinarith [mul_nonneg (show (0:ℚ) ≤ (n:ℚ) by positivity) (le_of_lt hT)]
    rw [drain_succ T u hT hlt]
    have hsub : u - T = r + n * T := by
      rw [hu]; push_cast; ring
    rw [ih (u - T) hsub]

theorem loopIter_frameTime (s : RenderLoop) (now : ℚ) :
    (loopIter s now).state.frameTime = s.frameTime := by
  rw [loopIter]
  split <;> rfl

theorem loopIter_isRunning (s : RenderLoop) (now : ℚ) :
    (loopIter s now).state.isRunning = s.isRunning := by
  rw [loopIter]
  split <;> rfl

theorem loopIter_startupTime (s : RenderLoop) (now : ℚ) :
    (loopIter s now).state.startupTime = s.startupTime := by
  rw [loopIter]
  split <;> rfl

theorem loopIter_lastTime (s : RenderLoop) (now : ℚ) :
    (loopIter s now).state.lastTime = now := by
  rw [loopIter]
  split <;> rfl

theorem loopIter_finished (s : RenderLoop) (now : ℚ) :
    (loopIter s now).state.finished = s.finished := by
  rw [loopIter]
  split <;> rfl

theorem loopIter_unprocessedTime (s : RenderLoop) (now : ℚ) :
    (loopIter s now).state.unprocessedTime =
      (drain s.frameTime (s.unprocessedTime + (now - s.lastTime))).1 := by
  rw [loopIter]
  split <;> rfl

theorem loopIter_tick_eq (s : RenderLoop) (now : ℚ) (tk : Tick)
    (h : (loopIter s now).tick = some tk) :
    tk = ⟨s.frameTime, now - s.lastTime, s.startupTime⟩ ∧
      s.isRunning = true ∧
      (drain s.frameTime (s.unprocessedTime + (now - s.lastTime))).2 ≠ 0 := by
  rw [loopIter] at h
  split at h
  · next hcond =>
    rw [Bool.and_eq_true, decide_eq_true_eq] at hcond
    simp only [Option.some.injEq] at h
    exact ⟨h.symm, hcond.1, hcond.2⟩
  · exact absurd h (by simp)

theorem loopIter_tick_none (s : RenderLoop) (now : ℚ)
    (h : s.isRunning = false) : (loopIter s now).tick = none := by
  rw [loopIter]
  have : (s.isRunning &&
      decide ((drain s.frameTime
        (s.unprocessedTime + (now - s.lastTime))).2 ≠ 0)) = false := by
    rw [h, Bool.false_and]
  simp only [this]
  rfl

theorem loopIter_cont_of_not_running (s : RenderLoop) (now : ℚ)
    (h : s.isRunning = false) :
    (loopIter s now).cont = IterCont.delayThenEnqueue := by
  rw [loopIter]
  have : (s.isRunning &&
      decide ((drain s.frameTime
        (s.unprocessedTime + (now - s.lastTime))).2 ≠ 0)) = false := by
    rw [h, Bool.false_and]
  simp only [this]
  rfl

theorem loopIter_inv (T : ℚ) (s : RenderLoop) (now : ℚ) (hT : 0 < T)
    (h : Inv T s) (hnow : s.lastTime ≤ now) :
    Inv T (loopIter s now).state := by
  obtain ⟨hft, hu0, huT⟩ := h
  refine ⟨by rw [loopIter_frameTime, hft], ?_, ?_⟩
  · rw [loopIter_unprocessedTime]
    exact drain_fst_nonneg _ _ (by linarith)
  · rw [loopIter_unprocessedTime, hft]
    exact drain_fst_le _ _ hT

theorem loopIter_tick_pos (T : ℚ) (s : RenderLoop) (now : ℚ) (tk : Tick)
    (h : Inv T s)
    (htk : (loopIter s now).tick = some tk) :
    0 < tk.frameTime ∧ tk.desiredFrameTime = T := by
  obtain ⟨hft, hu0, huT⟩ := h
  obtain ⟨htke, _, hd⟩ := loopIter_tick_eq s now tk htk
  have hlt : s.frameTime < s.unprocessedTime + (now - s.lastTime) :=
    drain_snd_ne_zero _ _ hd
  rw [hft] at hlt
  constructor
  · rw [htke]
    show 0 < now - s.lastTime
    linarith
  · rw [htke, hft]

theorem runLoop_state_inv (T : ℚ) (hT : 0 < T) :
    ∀ (ts : List ℚ) (s : RenderLoop), Inv T s →
      monoFrom s.lastTime ts = true → Inv T (runLoop s ts).1 := by
  intro ts
  induction ts with
  | nil => intro s h _; exact h
  | cons t ts ih =>
    intro s h hm
    rw [monoFrom, Bool.and_eq_true, decide_eq_true_eq] at hm
    have h1 : Inv T (loopIter s t).state := loopIter_inv T s t hT h hm.1
    have hm1 : monoFrom (loopIter s t).state.lastTime ts = true := by
      rw [loopIter_lastTime]; exact hm.2
    rw [runLoop]
    exact ih (loopIter s t).state h1 hm1

theorem runLoop_ticks_sound (T : ℚ) (hT : 0 < T) :
    ∀ (ts : List ℚ) (s : RenderLoop), Inv T s →
      monoFrom s.lastTime ts = true →
      ∀ tk ∈ (runLoop s ts).2, 0 < tk.frameTime ∧ tk.desiredFrameTime = T := by
  intro ts
  induction ts with
  | nil => intro s _ _ tk htk; simp [runLoop] at htk
  | cons t ts ih =>
    intro s h hm tk htk
    rw [monoFrom, Bool.and_eq_true, decide_eq_true_eq] at hm
    have h1 : Inv T (loopIter s t).state := loopIter_inv T s t hT h hm.1
    have hm1 : monoFrom (loopIter s t).state.lastTime ts = true := by
      rw [loopIter_lastTime]; exact hm.2
    rw [runLoop] at htk
    rcases hc : (loopIter s t).tick with _ | tk0
    · rw [hc] at htk
      exact ih (loopIter s t).state h1 hm1 tk htk
    · rw [hc] at htk
      rcases List.mem_cons.mp htk with heq | hmem
      · subst heq
        exact loopIter_tick_pos T s t tk h hc
      · exact ih (loopIter s t).state h1 hm1 tk hmem

theorem runLoop_ticks_desired (T : ℚ) :
    ∀ (ts : List ℚ) (s : RenderLoop), s.frameTime = T →
      ∀ tk ∈ (runLoop s ts).2, tk.desiredFrameTime = T := by
  intro ts
  induction ts with
  | nil => intro s _ tk htk; simp [runLoop] at htk
  | cons t ts ih =>
    intro s hft tk htk
    have hft1 : (loopIter s t).state.frameTime = T := by
      rw [loopIter_frameTime]; exact hft
    rw [runLoop] at htk
    rcases hc : (loopIter s t).tick with _ | tk0
    · rw [hc] at htk
      exact ih (loopIter s t).state hft1 tk htk
    · rw [hc] at htk
      rcases List.mem_cons.mp htk with heq | hmem
      · subst heq
        obtain ⟨htke, _, _⟩ := loopIter_tick_eq s t tk hc
        rw [htke, hft]
      · exact ih (loopIter s t).state hft1 tk hmem

theorem runLoop_no_ticks (ts : List ℚ) :
    ∀ (s : RenderLoop), s.isRunning = false → (runLoop s ts).2 = [] := by
  induction ts with
  | nil => intro s _; rfl
  | cons t ts ih =>
    intro s h
    rw [runLoop, loopIter_tick_none s t h]
    exact ih (loopIter s t).state (by rw [loopIter_isRunning]; exact h)

theorem monoFrom_append_left (ys : List ℚ) :
    ∀ (xs : List ℚ) (t : ℚ), monoFrom t (xs ++ ys) = true →
      monoFrom t xs = true := by
  intro xs
  induction xs with
  | nil => intro t _; rfl
  | cons x xs ih =>
    intro t h
    rw [List.cons_append, monoFrom, Bool.and_eq_true] at h
    rw [monoFrom, Bool.and_eq_true]
    exact ⟨h.1, ih x h.2⟩

theorem loopIter_tick_some (s : RenderLoop) (now : ℚ)
    (hrun : s.isRunning = true)
    (hd : (drain s.frameTime (s.unprocessedTime + (now - s.lastTime))).2 ≠ 0) :
    (loopIter s now).tick =
      some ⟨s.frameTime, now - s.lastTime, s.startupTime⟩ := by
  rw [loopIter]
  have hcond : (s.isRunning && decide
      ((drain s.frameTime (s.unprocessedTime + (now - s.lastTime))).2 ≠ 0)) = true := by
    rw [hrun, Bool.true_and, decide_eq_true_eq]
    exact hd
  simp only [hcond]
  rfl

theorem stop_fst (s : RenderLoop) (h : s.isRunning = false) : (stop s).1 = s := by
  cases s with
  | mk a b c d e f g i =>
    have hd : d = false := h
    subst hd
    rfl

/-- C3: once `isRunning` is false (set by `stop()` or a termination
signal), the next loop iteration emits no `Tick`, no later iteration
emits one either, the in-flight iteration takes the 1 ms idle-delay bail
path, and its `enqueueLoop` call resolves the completion signal and
schedules no further iteration. -/
theorem claim_stop_halts_loop (s : RenderLoop) (now : ℚ) (ts : List ℚ)
    (h : s.isRunning = false) :
    (loopIter s now).tick = none ∧
    (runLoop s ts).2 = [] ∧
    (loopIter s now).cont = IterCont.delayThenEnqueue ∧
    enqueueLoop s.isRunning = EnqueueAction.resolveFinished := by
  refine ⟨loopIter_tick_none s now h, runLoop_no_ticks ts s h,
    loopIter_cont_of_not_running s now h, ?_⟩
  rw [h]
  rfl

/-- Witness for C3 at a concrete stopped scheduler state. -/
theorem claim_stop_halts_loop_witness :
    ((⟨1, 0, 0, false, some false, 0, 0, 0⟩ : RenderLoop).isRunning = false) ∧
    ((loopIter ⟨1, 0, 0, false, some false, 0, 0, 0⟩ 1).tick = none ∧
     (runLoop (⟨1, 0, 0, false, some false, 0, 0, 0⟩ : RenderLoop) [1, 2]).2 = [] ∧
     (loopIter ⟨1, 0, 0, false, some false, 0, 0, 0⟩ 1).cont = IterCont.delayThenEnqueue ∧
     enqueueLoop (⟨1, 0, 0, false, some false, 0, 0, 0⟩ : RenderLoop).isRunning =
       EnqueueAction.resolveFinished) :=
  ⟨rfl, claim_stop_halts_loop ⟨1, 0, 0, false, some false, 0, 0, 0⟩ 1 [1, 2] rfl⟩

/-- C5 (code behavior at the failing input): the constructor performs no
validation of the frame rate; constructing a scheduler with rate `0` or
a negative rate completes without raising any error, contradicting the
specified fail-fast policy. -/
theorem claim_constructor_no_failfast :
    constructorOutcome freshUnits 0 = Except.ok (mkRenderLoop freshUnits 0) ∧
    constructorOutcome freshUnits (-30) = Except.ok (mkRenderLoop freshUnits (-30)) :=
  ⟨rfl, rfl⟩

/-- C6: for every positive frame rate `F`, the constructor stores
`targetFrameTime = (1/F).seconds`, and with a fresh unit table the
`.seconds` getter leaves the magnitude unchanged, so
`targetFrameTime = 1/F`. -/
theorem claim_targetFrameTime_inv_rate (F : ℚ) (h : 0 < F) :
    (mkRenderLoop freshUnits F).frameTime = 1 / F := rfl

/-- Witness for C6 at `F = 60`. -/
theorem claim_targetFrameTime_inv_rate_witness :
    (0 : ℚ) < 60 ∧ (mkRenderLoop freshUnits 60).frameTime = 1 / 60 :=
  ⟨by norm_num, claim_targetFrameTime_inv_rate 60 (by norm_num)⟩

/-- C8: calling `start()` on an already-running scheduler returns the
scheduler itself with every field unchanged and enqueues no second
iteration chain. -/
theorem claim_start_noop_when_running (s : RenderLoop) (now : ℚ)
    (h : s.isRunning = true) :
    start s now = (s, false) := by
  simp [start, h]

/-- Witness for C8 at a concrete running scheduler state. -/
theorem claim_start_noop_when_running_witness :
    ((⟨1, 3, 1/2, true, some false, 5, 6, 1/4⟩ : RenderLoop).isRunning = true) ∧
    start (⟨1, 3, 1/2, true, some false, 5, 6, 1/4⟩ : RenderLoop) 9 =
      (⟨1, 3, 1/2, true, some false, 5, 6, 1/4⟩, false) :=
  ⟨rfl, claim_start_noop_when_running ⟨1, 3, 1/2, true, some false, 5, 6, 1/4⟩ 9 rfl⟩

/-- C9: calling `stop()` on a non-running scheduler (never started:
`_finished = null`; or already stopped with its run fully completed:
`_finished` resolved) raises no error (the `finished` getter's assertion
passes), returns an immediately-resolved completion, leaves `isRunning`
false and the state unchanged, and is idempotent. -/
theorem claim_stop_nonrunning (s : RenderLoop)
    (h : s.isRunning = false)
    (hf : s.finished = none ∨ s.finished = some true) :
    (stop s).2 = Except.ok true ∧
    (stop s).1.isRunning = false ∧
    (stop s).1 = s ∧
    stop (stop s).1 = stop s := by
  have h1 : (stop s).1 = s := stop_fst s h
  refine ⟨?_, rfl, h1, by rw [h1]⟩
  rcases hf with hf | hf <;> simp [stop, finishedGet, hf]

/-- Witness for C9 at a concrete never-started scheduler state. -/
theorem claim_stop_nonrunning_witness :
    ((⟨1, 0, 0, false, none, 0, 0, 0⟩ : RenderLoop).isRunning = false) ∧
    ((⟨1, 0, 0, false, none, 0, 0, 0⟩ : RenderLoop).finished = none ∨
     (⟨1, 0, 0, false, none, 0, 0, 0⟩ : RenderLoop).finished = some true) ∧
    ((stop ⟨1, 0, 0, false, none, 0, 0, 0⟩).2 = Except.ok true ∧
     (stop ⟨1, 0, 0, false, none, 0, 0, 0⟩).1.isRunning = false ∧
     (stop ⟨1, 0, 0, false, none, 0, 0, 0⟩).1 = ⟨1, 0, 0, false, none, 0, 0, 0⟩ ∧
     stop (stop ⟨1, 0, 0, false, none, 0, 0, 0⟩).1 = stop ⟨1, 0, 0, false, none, 0, 0, 0⟩) :=
  ⟨rfl, Or.inl rfl,
    claim_stop_nonrunning ⟨1, 0, 0, false, none, 0, 0, 0⟩ rfl (Or.inl rfl)⟩

/-- C10: with a positive timestep the drain loop terminates on every
starting accumulator value — fuel `drainBound T u` suffices and the loop
exits with `drain T u` — while without that precondition it need not
terminate: at `T = 0` (as produced by a non-positive frame rate) and
accumulator `1` the loop is still running after any number of
iterations. -/
theorem claim_drain_loop_termination (T u : ℚ) (m : ℕ) (hT : 0 < T) :
    drainFuel T (drainBound T u) u = some (drain T u) ∧
    drainFuel 0 m 1 = none :=
  ⟨drainFuel_eq_drain T u hT,
    drainFuel_none_of_nonpos 0 le_rfl m 1 (by norm_num)⟩

/-- Witness for C10 at `T = 1`, `u = 5`, `m = 3`. -/
theorem claim_drain_loop_termination_witness :
    (0 : ℚ) < 1 ∧
    (drainFuel 1 (drainBound 1 5) 5 = some (drain 1 5) ∧
     drainFuel 0 3 1 = none) :=
  ⟨by norm_num, claim_drain_loop_termination 1 5 3 (by norm_num)⟩

/-- C1: over any run with positive timestep, monotone clock and the
`start()`-initialized accumulator, after every iteration (every prefix
of the run) `unprocessedTime` is non-negative and at most
`targetFrameTime`; each iteration changes it exactly by adding the
measured elapsed time and then subtracting `targetFrameTime` once per
drained timestep, and the drain loop's result is exactly its input minus
the drained count times `targetFrameTime` (never any other reset). -/
theorem claim_unprocessedTime_invariant (s : RenderLoop) (pre suf : List ℚ)
    (v : ℚ) (hT : 0 < s.frameTime) (h0 : s.unprocessedTime = 0)
    (hm : monoFrom s.lastTime (pre ++ suf) = true) :
    (0 ≤ (runLoop s pre).1.unprocessedTime ∧
      (runLoop s pre).1.unprocessedTime ≤ s.frameTime) ∧
    (loopIter s v).state.unprocessedTime =
      s.unprocessedTime + (v - s.lastTime) -
        ((drain s.frameTime (s.unprocessedTime + (v - s.lastTime))).2 : ℚ) *
          s.frameTime ∧
    (drain s.frameTime v).1 = v - ((drain s.frameTime v).2 : ℚ) * s.frameTime := by
  have hinv : Inv s.frameTime (runLoop s pre).1 :=
    runLoop_state_inv s.frameTime hT pre s
      ⟨rfl, by rw [h0], by rw [h0]; exact le_of_lt hT⟩
      (monoFrom_append_left suf pre s.lastTime hm)
  refine ⟨⟨hinv.2.1, hinv.2.2⟩, ?_, drain_fst_sub _ _⟩
  rw [loopIter_unprocessedTime, drain_fst_sub]

/-- Witness for C1 at a concrete started state and run. -/
theorem claim_unprocessedTime_invariant_witness :
    (0 : ℚ) < (⟨1, 0, 0, true, some false, 0, 0, 0⟩ : RenderLoop).frameTime ∧
    monoFrom (0 : ℚ) ([2] ++ [3]) = true ∧
    ((0 ≤ (runLoop (⟨1, 0, 0, true, some false, 0, 0, 0⟩ : RenderLoop) [2]).1.unprocessedTime ∧
      (runLoop (⟨1, 0, 0, true, some false, 0, 0, 0⟩ : RenderLoop) [2]).1.unprocessedTime ≤
        (⟨1, 0, 0, true, some false, 0, 0, 0⟩ : RenderLoop).frameTime) ∧
     (loopIter (⟨1, 0, 0, true, some false, 0, 0, 0⟩ : RenderLoop) 5).state.unprocessedTime =
       (0 : ℚ) + (5 - 0) - ((drain 1 ((0 : ℚ) + (5 - 0))).2 : ℚ) * 1 ∧
     (drain (1 : ℚ) 5).1 = 5 - ((drain (1 : ℚ) 5).2 : ℚ) * 1) := by
  have hm : monoFrom (0 : ℚ) ([2] ++ [3]) = true := by norm_num [monoFrom]
  exact ⟨by norm_num, hm,
    claim_unprocessedTime_invariant ⟨1, 0, 0, true, some false, 0, 0, 0⟩
      [2] [3] 5 (by norm_num) rfl hm⟩

/-- C2: every `Tick` delivered during a run (dispatched on the broadcast
event and passed to the application's `tick` callback) has
`frameTime > 0` and `desiredFrameTime` equal to the scheduler's
`targetFrameTime`, given a positive timestep, the `start()`-initialized
accumulator, and a monotone clock. -/
theorem claim_tick_fields (s : RenderLoop) (ts : List ℚ) (tk : Tick)
    (hT : 0 < s.frameTime) (h0 : s.unprocessedTime = 0)
    (hm : monoFrom s.lastTime ts = true)
    (htk : tk ∈ (runLoop s ts).2) :
    0 < tk.frameTime ∧ tk.desiredFrameTime = s.frameTime :=
  runLoop_ticks_sound s.frameTime hT ts s
    ⟨rfl, by rw [h0], by rw [h0]; exact le_of_lt hT⟩ hm tk htk

/-- Witness for C2: a concrete run that delivers a tick. -/
theorem claim_tick_fields_witness :
    (0 : ℚ) < (⟨1, 0, 0, true, some false, 0, 0, 0⟩ : RenderLoop).frameTime ∧
    monoFrom (0 : ℚ) [2] = true ∧
    (⟨1, 2, 0⟩ : Tick) ∈
      (runLoop (⟨1, 0, 0, true, some false, 0, 0, 0⟩ : RenderLoop) [2]).2 ∧
    (0 < (⟨1, 2, 0⟩ : Tick).frameTime ∧
      (⟨1, 2, 0⟩ : Tick).desiredFrameTime =
        (⟨1, 0, 0, true, some false, 0, 0, 0⟩ : RenderLoop).frameTime) := by
  have hd : (drain (1 : ℚ) ((0 : ℚ) + (2 - 0))).2 ≠ 0 := by
    have harg : ((0 : ℚ) + (2 - 0)) = 2 := by norm_num
    rw [harg, drain_eq_of 1 1 (by norm_num) (by norm_num) (by norm_num) 1 2 (by norm_num)]
    norm_num
  have h1 : (loopIter (⟨1, 0, 0, true, some false, 0, 0, 0⟩ : RenderLoop) 2).tick =
      some ⟨1, 2 - 0, 0⟩ :=
    loopIter_tick_some ⟨1, 0, 0, true, some false, 0, 0, 0⟩ 2 rfl hd
  have h1' : (loopIter (⟨1, 0, 0, true, some false, 0, 0, 0⟩ : RenderLoop) 2).tick =
      some ⟨1, 2, 0⟩ := by
    rw [h1]
    norm_num
  have h2 : (runLoop (⟨1, 0, 0, true, some false, 0, 0, 0⟩ : RenderLoop) [2]).2 =
      [⟨1, 2, 0⟩] := by
    simp only [runLoop, h1']
  have htk : (⟨1, 2, 0⟩ : Tick) ∈
      (runLoop (⟨1, 0, 0, true, some false, 0, 0, 0⟩ : RenderLoop) [2]).2 := by
    rw [h2]
    exact List.mem_singleton_self _
  have hm : monoFrom (0 : ℚ) [2] = true := by norm_num [monoFrom]
  exact ⟨by norm_num, hm, htk,
    claim_tick_fields ⟨1, 0, 0, true, some false, 0, 0, 0⟩ [2] ⟨1, 2, 0⟩
      (by norm_num) rfl hm htk⟩

/-- C4: on each iteration that delivers a tick, the frame-rate
measurement first resets both the frame counter and the 1-second window
accumulator when the accumulator has reached 1 second, and then
increments the frame counter by exactly 1 — independent of how many
timesteps the iteration drained — so the first frame after a window
rollover starts the new window's count at 1 with the accumulator at 0. -/
theorem claim_frame_counter (s : RenderLoop) (now : ℚ)
    (h : (loopIter s now).tick.isSome = true) :
    (loopIter s now).state.frames =
      (if 1 ≤ s.frameCounter + (now - s.lastTime) then 0 else s.frames) + 1 ∧
    (1 ≤ s.frameCounter + (now - s.lastTime) →
      (loopIter s now).state.frames = 1 ∧
      (loopIter s now).state.frameCounter = 0) := by
  rcases hb : (s.isRunning && decide
      ((drain s.frameTime (s.unprocessedTime + (now - s.lastTime))).2 ≠ 0)) with _ | _
  · rw [loopIter] at h
    simp only [hb] at h
    simp at h
  · constructor
    · rw [loopIter]
      simp only [hb]
      by_cases hc : 1 ≤ s.frameCounter + (now - s.lastTime)
      · simp [hc]
      · simp [hc]
    · intro hc
      rw [loopIter]
      simp only [hb]
      simp [hc]

/-- Witness for C4: a concrete tick-delivering iteration in which the
window has rolled over, starting the new window's count at 1. -/
theorem claim_frame_counter_witness :
    (loopIter (⟨1, 5, 0, true, some false, 0, 0, 0⟩ : RenderLoop) 2).tick.isSome = true ∧
    ((loopIter (⟨1, 5, 0, true, some false, 0, 0, 0⟩ : RenderLoop) 2).state.frames =
       (if 1 ≤ (0 : ℚ) + (2 - 0) then 0 else 5) + 1 ∧
     (1 ≤ (0 : ℚ) + (2 - 0) →
       (loopIter (⟨1, 5, 0, true, some false, 0, 0, 0⟩ : RenderLoop) 2).state.frames = 1 ∧
       (loopIter (⟨1, 5, 0, true, some false, 0, 0, 0⟩ : RenderLoop) 2).state.frameCounter = 0)) := by
  have hd : (drain (1 : ℚ) ((0 : ℚ) + (2 - 0))).2 ≠ 0 := by
    have harg : ((0 : ℚ) + (2 - 0)) = 2 := by norm_num
    rw [harg, drain_eq_of 1 1 (by norm_num) (by norm_num) (by norm_num) 1 2 (by norm_num)]
    norm_num
  have hsome : (loopIter (⟨1, 5, 0, true, some false, 0, 0, 0⟩ : RenderLoop) 2).tick.isSome = true := by
    rw [loopIter_tick_some ⟨1, 5, 0, true, some false, 0, 0, 0⟩ 2 rfl hd]
    rfl
  exact ⟨hsome, claim_frame_counter ⟨1, 5, 0, true, some false, 0, 0, 0⟩ 2 hsome⟩

/-- C7: for every positive configured frame rate `F`, every `Tick` the
scheduler produces during a run started from a freshly-constructed
instance has `desiredFrameRate` equal to `F`:
`1000 / ((1/F) * 1000) = F`. -/
theorem claim_desiredFrameRate_roundtrip (F t0 : ℚ) (ts : List ℚ) (tk : Tick)
    (hF : 0 < F)
    (htk : tk ∈ (runLoop (start (mkRenderLoop freshUnits F) t0).1 ts).2) :
    tk.desiredFrameRate = F := by
  have hft : (start (mkRenderLoop freshUnits F) t0).1.frameTime = 1 / F := rfl
  have hdt : tk.desiredFrameTime = 1 / F :=
    runLoop_ticks_desired (1 / F) ts _ hft tk htk
  rw [Tick.desiredFrameRate, hdt]
  have hne : F ≠ 0 := ne_of_gt hF
  field_simp

/-- Witness for C7: a run at rate 2 Hz delivering a tick whose
`desiredFrameRate` is 2. -/
theorem claim_desiredFrameRate_roundtrip_witness :
    (0 : ℚ) < 2 ∧
    (⟨1 / 2, 1, 0⟩ : Tick) ∈
      (runLoop (start (mkRenderLoop freshUnits 2) 0).1 [1]).2 ∧
    Tick.desiredFrameRate ⟨1 / 2, 1, 0⟩ = 2 := by
  have hd : (drain ((1 : ℚ) / 2) ((0 : ℚ) + (1 - 0))).2 ≠ 0 := by
    have harg : ((0 : ℚ) + (1 - 0)) = 1 := by norm_num
    rw [harg, drain_eq_of (1 / 2) (1 / 2) (by norm_num) (by norm_num) (by norm_num)
      1 1 (by norm_num)]
    norm_num
  have h1 : (loopIter (start (mkRenderLoop freshUnits 2) 0).1 1).tick =
      some ⟨1 / 2, 1 - 0, 0⟩ :=
    loopIter_tick_some (start (mkRenderLoop freshUnits 2) 0).1 1 rfl hd
  have h1' : (loopIter (start (mkRenderLoop freshUnits 2) 0).1 1).tick =
      some ⟨1 / 2, 1, 0⟩ := by
    rw [h1]
    norm_num
  have h2 : (runLoop (start (mkRenderLoop freshUnits 2) 0).1 [1]).2 =
      [⟨1 / 2, 1, 0⟩] := by
    simp only [runLoop, h1']
  have htk : (⟨1 / 2, 1, 0⟩ : Tick) ∈
      (runLoop (start (mkRenderLoop freshUnits 2) 0).1 [1]).2 := by
    rw [h2]
    exact List.mem_singleton_self _
  exact ⟨by norm_num, htk,
    claim_desiredFrameRate_roundtrip 2 0 [1] ⟨1 / 2, 1, 0⟩ (by norm_num) htk⟩

end RenderLoopSpec
